import Mathlib

/-!
Shallow embedding of the conversational-context manager of
`koishi-plugin-ollama` (`src/index.ts`).

The embedding models:
  * `UserMessage` and `Message` (the data exchanged with the backend);
  * `PrivateChatContext` and `GuildChatContext` with their four operations
    `trace`, `prepareRequest`, `finishRequest`, `cancelRequest`
    (`src/index.ts` lines 18-80), as pure state-passing functions;
  * the middleware turn orchestrator (`src/index.ts` lines 124-174) as a
    function from a session, a chat context and a backend result to a new
    context plus an observable outcome.

JavaScript mutable arrays become Lean lists: `push` is append of a
singleton, `pop` is `dropLast`, `splice(0, 1)` is `drop 1`.
`JSON.stringify` on the two shapes the source applies it to (a
`UserMessage` record, possibly absent, and an array of `UserMessage`) is
modelled by an executable serializer below.
-/

namespace OllamaPlugin

/-- `UserMessage` record (`src/index.ts` lines 4-9). -/
structure UserMessage where
  id : String
  name : String
  time : String
  msg : String
deriving Repr, DecidableEq

/-- Role-tagged `Message` exchanged with the ollama backend
(`role` is `"user"` or `"assistant"`, `content` is text). -/
structure Message where
  role : String
  content : String
deriving Repr, DecidableEq

/-- Lower-case hex digit, used for JSON control-character escapes. -/
def hexDigit (n : Nat) : Char :=
  if n < 10 then Char.ofNat (48 + n) else Char.ofNat (87 + n)

/-- JSON escaping of one character, as `JSON.stringify` performs it on
string values. -/
def jsonEscapeChar (c : Char) : String :=
  if c = '"' then "\\\""
  else if c = '\\' then "\\\\"
  else if c = '\x08' then "\\b"
  else if c = '\x0c' then "\\f"
  else if c = '\n' then "\\n"
  else if c = '\r' then "\\r"
  else if c = '\t' then "\\t"
  else if c.toNat < 32 then
    "\\u00" ++ String.mk [hexDigit (c.toNat / 16), hexDigit (c.toNat % 16)]
  else String.singleton c

/-- JSON string literal for `s`. -/
def jsonQuote (s : String) : String :=
  "\"" ++ String.join (s.toList.map jsonEscapeChar) ++ "\""

/-- `JSON.stringify` of one `UserMessage` record: an object literal with
the keys in declaration order (`id`, `name`, `time`, `msg`). -/
def UserMessage.toJson (m : UserMessage) : String :=
  "\x7b\"id\":" ++ jsonQuote m.id
    ++ ",\"name\":" ++ jsonQuote m.name
    ++ ",\"time\":" ++ jsonQuote m.time
    ++ ",\"msg\":" ++ jsonQuote m.msg
    ++ "\x7d"

/-- `JSON.stringify` of the direct variant's pending slot
(`this.tracedMsg`, which starts out as `undefined`). An absent slot is
rendered as the text `undefined`, matching how JavaScript coerces the
`undefined` result of `JSON.stringify(undefined)` when it is consumed as
text; the middleware never reaches `prepareRequest` with an absent slot. -/
def jsonStringifyTraced : Option UserMessage → String
  | some m => m.toJson
  | none => "undefined"

/-- `JSON.stringify` of an array of `UserMessage` records. -/
def jsonStringifyList (ms : List UserMessage) : String :=
  "[" ++ String.intercalate "," (ms.map UserMessage.toJson) ++ "]"

/-- State of `PrivateChatContext` (`src/index.ts` lines 18-47):
`tracedMsg` starts `undefined`, `history` starts empty. -/
structure PrivateChatContext where
  tracedMsg : Option UserMessage
  history : List Message
deriving Repr, DecidableEq

/-- `new PrivateChatContext()` (`src/index.ts` lines 22-26). -/
def PrivateChatContext.init : PrivateChatContext :=
  { tracedMsg := none, history := [] }

/-- `PrivateChatContext.trace` (`src/index.ts` lines 28-30):
`this.tracedMsg = message`. -/
def PrivateChatContext.trace (c : PrivateChatContext) (message : UserMessage) :
    PrivateChatContext :=
  { c with tracedMsg := some message }

/-- `PrivateChatContext.prepareRequest` (`src/index.ts` lines 32-38):
pushes `\x7brole: "user", content: JSON.stringify(this.tracedMsg)\x7d` onto
`history` and returns `history`. -/
def PrivateChatContext.prepareRequest (c : PrivateChatContext) :
    PrivateChatContext × List Message :=
  let history := c.history ++
    [{ role := "user", content := jsonStringifyTraced c.tracedMsg }]
  ({ c with history := history }, history)

/-- `PrivateChatContext.finishRequest` (`src/index.ts` lines 40-42):
pushes the assistant message onto `history`. -/
def PrivateChatContext.finishRequest (c : PrivateChatContext)
    (assistant_message : Message) : PrivateChatContext :=
  { c with history := c.history ++ [assistant_message] }

/-- `PrivateChatContext.cancelRequest` (`src/index.ts` lines 44-46):
`this.history.pop()` removes the last entry (no-op on an empty array). -/
def PrivateChatContext.cancelRequest (c : PrivateChatContext) :
    PrivateChatContext :=
  { c with history := c.history.dropLast }

/-- State of `GuildChatContext` (`src/index.ts` lines 49-80):
`tracedMsg` is an array, `history` starts empty. -/
structure GuildChatContext where
  tracedMsg : List UserMessage
  history : List Message
deriving Repr, DecidableEq

/-- `new GuildChatContext()` (`src/index.ts` lines 53-57). -/
def GuildChatContext.init : GuildChatContext :=
  { tracedMsg := [], history := [] }

/-- `GuildChatContext.trace` (`src/index.ts` lines 59-62): pushes the
message, then `if (this.tracedMsg.length > 100) this.tracedMsg.splice(0, 1)`
removes the oldest entry. -/
def GuildChatContext.trace (c : GuildChatContext) (message : UserMessage) :
    GuildChatContext :=
  let t := c.tracedMsg ++ [message]
  { c with tracedMsg := if t.length > 100 then t.drop 1 else t }

/-- `GuildChatContext.prepareRequest` (`src/index.ts` lines 64-70). -/
def GuildChatContext.prepareRequest (c : GuildChatContext) :
    GuildChatContext × List Message :=
  let history := c.history ++
    [{ role := "user", content := jsonStringifyList c.tracedMsg }]
  ({ c with history := history }, history)

/-- `GuildChatContext.finishRequest` (`src/index.ts` lines 72-75): clears
`tracedMsg` and pushes the assistant message onto `history`. -/
def GuildChatContext.finishRequest (c : GuildChatContext)
    (assistant_message : Message) : GuildChatContext :=
  { c with tracedMsg := [], history := c.history ++ [assistant_message] }

/-- `GuildChatContext.cancelRequest` (`src/index.ts` lines 77-79). -/
def GuildChatContext.cancelRequest (c : GuildChatContext) :
    GuildChatContext :=
  { c with history := c.history.dropLast }

/-- The polymorphic `ChatContext` (`src/index.ts` lines 11-16), as the sum
of its two concrete variants. -/
inductive ChatContext where
  | priv (c : PrivateChatContext)
  | guild (c : GuildChatContext)
deriving Repr, DecidableEq

/-- The `history` field of either variant. -/
def ChatContext.history : ChatContext → List Message
  | .priv c => c.history
  | .guild c => c.history

/-- Virtual dispatch of `trace`. -/
def ChatContext.trace : ChatContext → UserMessage → ChatContext
  | .priv c, m => .priv (c.trace m)
  | .guild c, m => .guild (c.trace m)

/-- Virtual dispatch of `prepareRequest`. -/
def ChatContext.prepareRequest : ChatContext → ChatContext × List Message
  | .priv c => (.priv (c.prepareRequest).1, (c.prepareRequest).2)
  | .guild c => (.guild (c.prepareRequest).1, (c.prepareRequest).2)

/-- Virtual dispatch of `finishRequest`. -/
def ChatContext.finishRequest : ChatContext → Message → ChatContext
  | .priv c, m => .priv (c.finishRequest m)
  | .guild c, m => .guild (c.finishRequest m)

/-- Virtual dispatch of `cancelRequest`. -/
def ChatContext.cancelRequest : ChatContext → ChatContext
  | .priv c => .priv c.cancelRequest
  | .guild c => .guild c.cancelRequest

/-- The serialization of the current pending buffer, exactly as
`prepareRequest` of each variant applies `JSON.stringify` to it
(the single slot for direct, the whole array for group). -/
def ChatContext.serializePending : ChatContext → String
  | .priv c => jsonStringifyTraced c.tracedMsg
  | .guild c => jsonStringifyList c.tracedMsg

/-- Context creation on first message
(`session.guildId ? new GuildChatContext() : new PrivateChatContext()`,
`src/index.ts` line 133). -/
def ChatContext.fresh (isGuild : Bool) : ChatContext :=
  if isGuild then .guild GuildChatContext.init else .priv PrivateChatContext.init

/-- One element of an inbound message's element tree. The middleware only
inspects elements of type `"at"` and their `attrs.id`, so an element is
modelled as its type tag plus that attribute. -/
structure MessageElement where
  type : String
  id : String
deriving Repr, DecidableEq

/-- `h.select(session.elements, "at")[0]` (`src/index.ts` line 125): the
first element of type `"at"`, if any. -/
def selectAt (elements : List MessageElement) : Option MessageElement :=
  (elements.filter (fun e => e.type == "at")).head?

/-- The fields of a koishi `Session` that the middleware and
`extractUserMessage` read. `time` carries the already formatted timestamp
string (`new Date(session.timestamp).toString()` is platform-owned
formatting). -/
structure Session where
  guildId : Option String
  gid : String
  uid : String
  userId : String
  username : String
  time : String
  content : String
  elements : List MessageElement
  botUserId : String
  messageId : String
deriving Repr, DecidableEq

/-- The plugin configuration (`src/index.ts` lines 197-202). -/
structure Config where
  endpoint : String
  enableChat : Bool
  tooLongThreshold : Nat
  chatModelName : String
deriving Repr, DecidableEq

/-- `extractUserMessage` (`src/index.ts` lines 82-89). -/
def extractUserMessage (session : Session) : UserMessage :=
  { id := session.userId
    name := session.username
    time := session.time
    msg := session.content }

/-- Result of the awaited `this.api.chat` call: either a reply message or
an error carrying an optional `cause.code`. -/
inductive BackendResult where
  | success (message : Message)
  | failure (causeCode : Option String)
deriving Repr, DecidableEq

/-- What the middleware hands back to the transport: fall through to
`next()`, a quote-reference reply with the assistant text, or a localized
message identified by its i18n key. -/
inductive Outcome where
  | next
  | reply (quotedMessageId : String) (text : String)
  | i18n (key : String)
deriving Repr, DecidableEq

/-- Observable result of one middleware invocation: the updated chat
context, the produced outcome, and the message list sent to the backend
(`none` when no backend call was made). -/
structure StepResult where
  context : ChatContext
  outcome : Outcome
  requested : Option (List Message)
deriving Repr, DecidableEq

/-- Error classification of the `catch` block (`src/index.ts` lines
164-172). -/
def errorKey : Option String → String
  | some "UND_ERR_CONNECT_TIMEOUT" => "ollama-chat.messages.connTimeout"
  | some "ECONNREFUSED" => "ollama-chat.messages.connRefused"
  | _ => "ollama-chat.messages.unknownError"

/-- Negation of the early-return condition at `src/index.ts` lines
141-146: the turn is triggered unless the session is a guild session whose
first `at` element (if any) is not the bot and whose text does not start
with `"@Koishi"`. -/
def triggers (session : Session) : Bool :=
  !(session.guildId.isSome
    && (match selectAt session.elements with
        | none => true
        | some a => a.id != session.botUserId)
    && !(session.content.startsWith "@Koishi"))

/-- One middleware invocation (`src/index.ts` lines 124-174) for an
already resolved chat context, with the backend call's result supplied as
a parameter. Follows the source's control flow: compute `tooLong`, trace
the message when not too long, fall through to `next()` when the trigger
condition fails, reply `contentTooLong` when too long, otherwise run the
`prepareRequest` / backend / `finishRequest`-or-`cancelRequest` bracket. -/
def middlewareStep (config : Config) (session : Session)
    (chatContext : ChatContext) (backend : BackendResult) : StepResult :=
  let tooLong := session.content.length > config.tooLongThreshold
  let userMessage := extractUserMessage session
  let c1 := if tooLong then chatContext else chatContext.trace userMessage
  if !(triggers session) then
    { context := c1, outcome := .next, requested := none }
  else if tooLong then
    { context := c1
      outcome := .i18n "ollama-chat.messages.contentTooLong"
      requested := none }
  else
    let pr := c1.prepareRequest
    match backend with
    | .success m =>
        { context := pr.1.finishRequest m
          outcome := .reply session.messageId m.content
          requested := some pr.2 }
    | .failure cause =>
        { context := pr.1.cancelRequest
          outcome := .i18n (errorKey cause)
          requested := some pr.2 }

/-- Abstract turn shapes of a conversation, as the middleware drives them:
a recorded-only message, a successful triggered turn (trace, prepare,
finish) or a failed triggered turn (trace, prepare, cancel). -/
inductive TurnEvent where
  | traceOnly (message : UserMessage)
  | successTurn (message : UserMessage) (reply : Message)
  | failTurn (message : UserMessage)
deriving Repr, DecidableEq

/-- Effect of one turn on a chat context. -/
def applyTurn (c : ChatContext) : TurnEvent → ChatContext
  | .traceOnly m => c.trace m
  | .successTurn m r => ((c.trace m).prepareRequest.1).finishRequest r
  | .failTurn m => ((c.trace m).prepareRequest.1).cancelRequest

/-- Effect of a sequence of turns. -/
def applyTurns (c : ChatContext) (ts : List TurnEvent) : ChatContext :=
  ts.foldl applyTurn c

/-- Number of successful triggered turns in a sequence. -/
def countSuccesses : List TurnEvent → Nat
  | [] => 0
  | .successTurn _ _ :: ts => countSuccesses ts + 1
  | .traceOnly _ :: ts => countSuccesses ts
  | .failTurn _ :: ts => countSuccesses ts

/-- A sequence of `trace` calls on the group variant. -/
def GuildChatContext.traceAll (c : GuildChatContext)
    (ms : List UserMessage) : GuildChatContext :=
  ms.foldl GuildChatContext.trace c

/-- A sequence of `trace` calls on the direct variant. -/
def PrivateChatContext.traceAll (c : PrivateChatContext)
    (ms : List UserMessage) : PrivateChatContext :=
  ms.foldl PrivateChatContext.trace c

/-- A sample traced record used in concrete instantiations. -/
def sampleUserMessage : UserMessage :=
  { id := "u1", name := "alice", time := "t0", msg := "hello" }

/-- A configuration with the schema's default threshold. -/
def configDefault : Config :=
  { endpoint := "http://localhost:11434"
    enableChat := true
    tooLongThreshold := 100
    chatModelName := "llama3.1" }

/-- A configuration with a tiny threshold, to exercise the oversized
branch. -/
def configTiny : Config :=
  { endpoint := "http://localhost:11434"
    enableChat := true
    tooLongThreshold := 1
    chatModelName := "llama3.1" }

/-- A guild session whose first mention element addresses another user and
whose second mention element addresses the bot. -/
def sessionSecondMention : Session :=
  { guildId := some "g1"
    gid := "g1"
    uid := "u1"
    userId := "u1"
    username := "alice"
    time := "t0"
    content := "hi bot"
    elements := [{ type := "at", id := "u2" }, { type := "at", id := "bot9" }]
    botUserId := "bot9"
    messageId := "m1" }

/-- A guild session with no mention and no bot-name text, whose content is
longer than `configTiny`'s threshold. -/
def sessionLongUntriggered : Session :=
  { guildId := some "g1"
    gid := "g1"
    uid := "u1"
    userId := "u1"
    username := "alice"
    time := "t0"
    content := "hello"
    elements := []
    botUserId := "bot9"
    messageId := "m2" }

/-- A direct session whose content is longer than `configTiny`'s
threshold. -/
def sessionLongDirect : Session :=
  { guildId := none
    gid := ""
    uid := "u1"
    userId := "u1"
    username := "alice"
    time := "t0"
    content := "hello"
    elements := []
    botUserId := "bot9"
    messageId := "m3" }

/-- A short direct session. -/
def sessionShortDirect : Session :=
  { guildId := none
    gid := ""
    uid := "u1"
    userId := "u1"
    username := "alice"
    time := "t0"
    content := "hi"
    elements := []
    botUserId := "bot9"
    messageId := "m4" }

/-! ## Basic operation lemmas, shared across the claim theorems -/

@[simp]
theorem ChatContext.history_trace (c : ChatContext) (m : UserMessage) :
    (c.trace m).history = c.history := by
  cases c <;> rfl

@[simp]
theorem ChatContext.history_prepareRequest (c : ChatContext) :
    (c.prepareRequest.1).history
      = c.history ++ [{ role := "user", content := c.serializePending }] := by
  cases c <;> rfl

@[simp]
theorem ChatContext.snd_prepareRequest (c : ChatContext) :
    c.prepareRequest.2
      = c.history ++ [{ role := "user", content := c.serializePending }] := by
  cases c <;> rfl

@[simp]
theorem ChatContext.history_finishRequest (c : ChatContext) (m : Message) :
    (c.finishRequest m).history = c.history ++ [m] := by
  cases c <;> rfl

@[simp]
theorem ChatContext.history_cancelRequest (c : ChatContext) :
    c.cancelRequest.history = c.history.dropLast := by
  cases c <;> rfl

@[simp]
theorem ChatContext.serializePending_trace_priv (c : PrivateChatContext)
    (m : UserMessage) :
    (ChatContext.priv (c.trace m)).serializePending
      = jsonStringifyTraced (some m) := by
  rfl

theorem ChatContext.prepare_cancel_history (c : ChatContext) :
    ((c.prepareRequest.1).cancelRequest).history = c.history := by
  simp

theorem applyTurns_history_length (ts : List TurnEvent) :
    ∀ c : ChatContext, (applyTurns c ts).history.length
      = c.history.length + 2 * countSuccesses ts := by
  induction ts with
  | nil => intro c; simp [applyTurns, countSuccesses]
  | cons e ts ih =>
    intro c
    have hstep : applyTurns c (e :: ts) = applyTurns (applyTurn c e) ts := rfl
    rw [hstep, ih]
    cases e with
    | traceOnly m => simp [applyTurn, countSuccesses]
    | successTurn m r =>
      simp [applyTurn, countSuccesses]
      omega
    | failTurn m => simp [applyTurn, countSuccesses]

theorem GuildChatContext.traceAll_drop (ms : List UserMessage) :
    ∀ c : GuildChatContext, c.tracedMsg.length ≤ 100 →
      (c.traceAll ms).tracedMsg
        = (c.tracedMsg ++ ms).drop ((c.tracedMsg ++ ms).length - 100) := by
  induction ms with
  | nil =>
    intro c hc
    have h0 : c.tracedMsg.length - 100 = 0 := Nat.sub_eq_zero_of_le hc
    simp [GuildChatContext.traceAll, h0]
  | cons m ms ih =>
    intro c hc
    have hstep : c.traceAll (m :: ms) = (c.trace m).traceAll ms := rfl
    rw [hstep]
    by_cases h100 : c.tracedMsg.length = 100
    · obtain ⟨a, b, hab⟩ : ∃ a b, c.tracedMsg = a :: b := by
        cases hcm : c.tracedMsg with
        | nil => rw [hcm] at h100; simp at h100
        | cons a b => exact ⟨a, b, rfl⟩
      have hb : b.length = 99 := by
        rw [hab] at h100; simpa using h100
      have htr : (c.trace m).tracedMsg = b ++ [m] := by
        simp [GuildChatContext.trace, hab, hb]
      have hlen : (c.trace m).tracedMsg.length ≤ 100 := by
        rw [htr]; simp [hb]
      rw [ih _ hlen, htr, hab]
      have hL : (b ++ [m]) ++ ms = b ++ m :: ms := by simp
      rw [hL]
      have h1 : (b ++ m :: ms).length - 100 = ms.length := by
        simp [hb]
        omega
      have h2 : ((a :: b) ++ m :: ms).length - 100 = ms.length + 1 := by
        simp [hb]
      rw [h1, h2]
      have hcons : (a :: b) ++ m :: ms = a :: (b ++ m :: ms) := rfl
      rw [hcons, List.drop_succ_cons]
    · have hcond : ¬ ((c.tracedMsg ++ [m]).length > 100) := by
        simp only [List.length_append, List.length_singleton]
        omega
      have htr : (c.trace m).tracedMsg = c.tracedMsg ++ [m] := by
        unfold GuildChatContext.trace
        dsimp only
        rw [if_neg hcond]
      have hlen : (c.trace m).tracedMsg.length ≤ 100 := by
        rw [htr]
        simp only [List.length_append, List.length_singleton]
        omega
      rw [ih _ hlen, htr]
      simp only [List.append_assoc, List.singleton_append]

theorem triggers_eq (session : Session) :
    triggers session
      = (session.guildId.isNone
          || (match selectAt session.elements with
              | some a => a.id == session.botUserId
              | none => false)
          || session.content.startsWith "@Koishi") := by
  unfold triggers
  cases hg : session.guildId <;>
    cases ha : selectAt session.elements <;>
      simp [hg, ha, Bool.not_and, bne]

/-! ## Claim theorems -/

/-- C1 (counterexample): the claim says `history` is never mutated by any
operation other than `finishRequest` and `cancelRequest`, in particular
not by `prepareRequest`. On the code, `prepareRequest` pushes a user
message onto `history`: already on a fresh direct context its `history`
differs after a single `prepareRequest` call with neither `finishRequest`
nor `cancelRequest` involved. -/
theorem prepareRequest_mutates_history_counterexample :
    (PrivateChatContext.init.prepareRequest.1).history
      ≠ PrivateChatContext.init.history := by
  decide

/-- C1 (amended): `history` is mutated only by `prepareRequest` (which
appends exactly one user-role entry), `finishRequest` (which appends
exactly one entry) and `cancelRequest` (which removes exactly the most
recent entry, if any); `trace` never mutates `history`. Holds for both
variants. -/
theorem history_mutation_profile :
    (∀ (c : ChatContext) (m : UserMessage), (c.trace m).history = c.history)
    ∧ (∀ c : ChatContext, (c.prepareRequest.1).history
        = c.history ++ [{ role := "user", content := c.serializePending }])
    ∧ (∀ (c : ChatContext) (m : Message),
        (c.finishRequest m).history = c.history ++ [m])
    ∧ (∀ c : ChatContext, c.cancelRequest.history = c.history.dropLast) :=
  ⟨ChatContext.history_trace, ChatContext.history_prepareRequest,
   ChatContext.history_finishRequest, ChatContext.history_cancelRequest⟩

/-- C2: for every context state of either variant, `prepareRequest`
followed by `cancelRequest` restores `history` exactly; consequently a
middleware invocation whose backend call fails (whatever the cause code,
and in every branch of the middleware) leaves the context's `history`
exactly as it was before the invocation, so no orphaned user turn
remains. -/
theorem failed_turn_restores_history :
    (∀ c : ChatContext, ((c.prepareRequest.1).cancelRequest).history = c.history)
    ∧ (∀ (config : Config) (session : Session) (c : ChatContext)
        (cause : Option String),
        (middlewareStep config session c (.failure cause)).context.history
          = c.history) := by
  refine ⟨ChatContext.prepare_cancel_history, ?_⟩
  intro config session c cause
  unfold middlewareStep
  dsimp only
  split_ifs <;> simp

/-- C5: the direct variant's pending slot always holds exactly the most
recently traced message: after any nonempty sequence of `trace` calls it
is the last message of the sequence, and a context subjected to no
`trace` call keeps its previous slot. -/
theorem private_pending_holds_last_traced :
    (∀ (c : PrivateChatContext) (ms : List UserMessage) (m : UserMessage),
        (c.traceAll (ms ++ [m])).tracedMsg = some m)
    ∧ (∀ c : PrivateChatContext, (c.traceAll []).tracedMsg = c.tracedMsg) := by
  constructor
  · intro c ms m
    simp [PrivateChatContext.traceAll, PrivateChatContext.trace]
  · intro c
    rfl

/-- C6: for both variants and every context state, `prepareRequest`
appends exactly one new user-role `Message` whose content is the
`JSON.stringify` serialization of the current pending buffer (the single
slot for direct, the whole array for group), returns the full updated
`history`, and the updated `history` is one entry longer than before. -/
theorem prepareRequest_appends_serialized_pending (c : ChatContext) :
    (c.prepareRequest.1).history
      = c.history ++ [{ role := "user", content := c.serializePending }]
    ∧ c.prepareRequest.2 = (c.prepareRequest.1).history
    ∧ (c.prepareRequest.1).history.length = c.history.length + 1 := by
  cases c <;> simp [ChatContext.serializePending]

/-- C7: for both variants and every context state, `finishRequest m`
appends the assistant message `m` to `history`; the group variant
additionally resets its pending buffer to empty, while the direct variant
leaves its pending slot unchanged. -/
theorem finishRequest_appends_reply :
    (∀ (c : PrivateChatContext) (m : Message),
        (c.finishRequest m).history = c.history ++ [m]
        ∧ (c.finishRequest m).tracedMsg = c.tracedMsg)
    ∧ (∀ (c : GuildChatContext) (m : Message),
        (c.finishRequest m).history = c.history ++ [m]
        ∧ (c.finishRequest m).tracedMsg = []) := by
  exact ⟨fun c m => ⟨rfl, rfl⟩, fun c m => ⟨rfl, rfl⟩⟩

/-- C10: for both variants and every context state, `cancelRequest` leaves
the pending buffer unchanged; hence after a failed turn (`prepareRequest`
then `cancelRequest`) the pending buffer is still intact, and for the
group variant the next `prepareRequest` appends a user message that again
serializes exactly the retained pending sequence. -/
theorem cancelRequest_preserves_pending :
    (∀ c : PrivateChatContext, c.cancelRequest.tracedMsg = c.tracedMsg)
    ∧ (∀ c : GuildChatContext, c.cancelRequest.tracedMsg = c.tracedMsg)
    ∧ (∀ c : PrivateChatContext,
        ((c.prepareRequest.1).cancelRequest).tracedMsg = c.tracedMsg)
    ∧ (∀ c : GuildChatContext,
        ((c.prepareRequest.1).cancelRequest).tracedMsg = c.tracedMsg)
    ∧ (∀ c : GuildChatContext,
        ((((c.prepareRequest.1).cancelRequest).prepareRequest.2).getLast?)
          = some { role := "user", content := jsonStringifyList c.tracedMsg }) := by
  refine ⟨fun c => rfl, fun c => rfl, fun c => rfl, fun c => rfl, fun c => ?_⟩
  simp [GuildChatContext.prepareRequest, GuildChatContext.cancelRequest]

/-- C3: starting from a freshly created context of either variant, after
any sequence of turns — successful triggered turns (`trace`,
`prepareRequest`, `finishRequest`), failed triggered turns (`trace`,
`prepareRequest`, `cancelRequest`) and merely traced turns — the length of
`history` is exactly twice the number of successful turns. -/
theorem history_length_eq_twice_successes (isGuild : Bool)
    (ts : List TurnEvent) :
    (applyTurns (ChatContext.fresh isGuild) ts).history.length
      = 2 * countSuccesses ts := by
  rw [applyTurns_history_length]
  cases isGuild <;>
    simp [ChatContext.fresh, ChatContext.history, GuildChatContext.init,
      PrivateChatContext.init]

/-- C4: starting from a fresh group context, after any sequence of `trace`
calls the pending buffer is exactly the most recent (at most) 100 traced
messages in oldest-to-newest order — the suffix `ms.drop (ms.length - 100)`
of the traced sequence — and in particular never exceeds 100 entries; for
a sequence of 101 calls this is `ms.drop 1`, so the first traced message
has been evicted (FIFO). -/
theorem guild_pending_fifo_cap (ms : List UserMessage) :
    (GuildChatContext.init.traceAll ms).tracedMsg = ms.drop (ms.length - 100)
    ∧ (GuildChatContext.init.traceAll ms).tracedMsg.length ≤ 100 := by
  have h := GuildChatContext.traceAll_drop ms GuildChatContext.init
    (by simp [GuildChatContext.init])
  rw [show GuildChatContext.init.tracedMsg = ([] : List UserMessage) from rfl,
    List.nil_append] at h
  refine ⟨h, ?_⟩
  rw [h]
  simp only [List.length_drop]
  omega

/-- C8 (counterexample): the claim says a group conversation triggers
whenever the message contains a mention element addressed to the bot. In
the code only the FIRST `at` element is inspected
(`h.select(session.elements, "at")[0]`): a message whose first mention
addresses another user and whose second mention addresses the bot falls
through to `next()`, even though it contains a mention of the bot and its
text has no `"@Koishi"` prefix but is short enough to be traced. -/
theorem second_mention_not_triggering :
    (middlewareStep configDefault sessionSecondMention (ChatContext.fresh true)
        (BackendResult.success { role := "assistant", content := "hi" })).outcome
      = Outcome.next
    ∧ sessionSecondMention.elements.any
        (fun e => e.type == "at" && e.id == sessionSecondMention.botUserId)
        = true
    ∧ sessionSecondMention.content.startsWith "@Koishi" = false := by
  decide

/-- C8 (amended): a direct conversation always satisfies the trigger
condition; a group conversation satisfies it exactly when its FIRST
mention element is addressed to the bot's identifier or its text starts
with `"@Koishi"`. The middleware passes to the next handler exactly when
the condition fails, and whenever the condition holds and the message is
not oversized, the request/response cycle runs: the backend is invoked
with the prepared history. -/
theorem trigger_condition_characterization (config : Config)
    (session : Session) (c : ChatContext) (b : BackendResult) :
    ((middlewareStep config session c b).outcome = Outcome.next
      ↔ triggers session = false)
    ∧ triggers session
        = (session.guildId.isNone
            || (match selectAt session.elements with
                | some a => a.id == session.botUserId
                | none => false)
            || session.content.startsWith "@Koishi")
    ∧ (triggers session = true →
        session.content.length ≤ config.tooLongThreshold →
        (middlewareStep config session c b).requested
          = some ((c.trace (extractUserMessage session)).prepareRequest.2)) := by
  refine ⟨?_, triggers_eq session, ?_⟩
  · unfold middlewareStep
    dsimp only
    by_cases ht : triggers session <;>
      by_cases hlen : session.content.length > config.tooLongThreshold <;>
        cases b <;> simp [ht, hlen]
  · intro ht hlen
    have hlen' : ¬ (session.content.length > config.tooLongThreshold) := by
      omega
    unfold middlewareStep
    dsimp only
    cases b <;> simp [ht, hlen']

/-- C8 (witness): on a short direct message with a failing backend, the
trigger condition holds and the backend is invoked with the prepared
history. -/
theorem trigger_condition_witness :
    (middlewareStep configDefault sessionShortDirect (ChatContext.fresh false)
        (BackendResult.failure (some "ECONNREFUSED"))).requested
      = some (((ChatContext.fresh false).trace
          (extractUserMessage sessionShortDirect)).prepareRequest.2) :=
  (trigger_condition_characterization configDefault sessionShortDirect
    (ChatContext.fresh false)
    (BackendResult.failure (some "ECONNREFUSED"))).2.2 (by decide) (by decide)

/-- C9 (counterexample): the claim says every oversized message is
rejected with the dedicated localized reply. An oversized message in a
group conversation that does not satisfy the trigger condition falls
through to `next()` instead: no "content too long" reply is produced. -/
theorem oversized_untriggered_passes_to_next :
    sessionLongUntriggered.content.length > configTiny.tooLongThreshold
    ∧ (middlewareStep configTiny sessionLongUntriggered (ChatContext.fresh true)
        (BackendResult.success { role := "assistant", content := "hi" })).outcome
        = Outcome.next
    ∧ Outcome.next ≠ Outcome.i18n "ollama-chat.messages.contentTooLong" := by
  decide

/-- C9 (amended): every oversized message leaves the chat context (both
`history` and pending) exactly unchanged, is never traced and never sent
to the backend; it receives the dedicated localized "content too long"
reply exactly when the trigger condition holds, and otherwise passes to
the next handler. -/
theorem oversized_rejected_without_mutation (config : Config)
    (session : Session) (c : ChatContext) (b : BackendResult)
    (h : session.content.length > config.tooLongThreshold) :
    (middlewareStep config session c b).context = c
    ∧ (middlewareStep config session c b).requested = none
    ∧ (middlewareStep config session c b).outcome
        = (if triggers session then
            Outcome.i18n "ollama-chat.messages.contentTooLong"
          else Outcome.next) := by
  unfold middlewareStep
  dsimp only
  rw [if_pos h]
  by_cases ht : triggers session <;> simp [ht, if_pos h]

/-- C9 (witness): an oversized direct message with a tiny threshold leaves
the fresh context unchanged, makes no backend call, and gets the
"content too long" reply. -/
theorem oversized_rejected_witness :
    (middlewareStep configTiny sessionLongDirect (ChatContext.fresh false)
        (BackendResult.success { role := "assistant", content := "hi" })).context
      = ChatContext.fresh false
    ∧ (middlewareStep configTiny sessionLongDirect (ChatContext.fresh false)
        (BackendResult.success { role := "assistant", content := "hi" })).requested
      = none := by
  have h := oversized_rejected_without_mutation configTiny sessionLongDirect
    (ChatContext.fresh false)
    (BackendResult.success { role := "assistant", content := "hi" }) (by decide)
  exact ⟨h.1, h.2.1⟩

end OllamaPlugin
